import Mathlib

set_option maxHeartbeats 1000000

/-!
Shallow embedding of the `xu::shared_buf` class (src/include/shared_buf.hpp):
a reference-counted byte buffer wrapping a `std::shared_ptr` of a byte array
together with a size, plus a forward iterator and a hex-formatting printer.

Storage is modelled by an explicit heap mapping allocation identifiers to
byte contents; a buffer's `ptr` is an optional allocation identifier
(`none` models a null `std::shared_ptr`, as after a move).  `size_t`
arithmetic is modelled as `Nat` with explicit reduction modulo `2 ^ 64`
where the source can overflow (`iterator_::operator+=`).
-/

/-- A heap: allocation identifier and byte index to stored byte value. -/
abbrev Heap := Nat → Nat → Nat

/-- Cardinality of the machine type `size_t` (64-bit). -/
def SIZE_T_CARD : Nat := 2 ^ 64

/-- Reading a byte through a possibly-null pointer.  The source never reads
through a null pointer (every read is guarded by a bound that is 0 for a
moved-from buffer); reading through `none` is given the junk value 0. -/
def heapRead (hp : Heap) (p : Option Nat) (i : Nat) : Nat :=
  match p with
  | some a => hp a i
  | none => 0

/-- Writing a byte through a possibly-null pointer.  The stored value is
reduced modulo 256 (`uint8_t` storage).  Writing through `none` is
unreachable in the source and leaves the heap unchanged. -/
def heapWrite (hp : Heap) (p : Option Nat) (i v : Nat) : Heap :=
  match p with
  | some a => fun a' i' => if a' = a ∧ i' = i then v % 256 else hp a' i'
  | none => hp

/-- Error raised by bounds-checked access (`std::out_of_range`). -/
inductive BufError where
  | outOfRange
  deriving DecidableEq

/-- `xu::shared_buf`: a shared pointer to a byte allocation plus a size. -/
structure shared_buf where
  ptr : Option Nat
  sz : Nat
  deriving DecidableEq

/-- `shared_buf::iterator_`: base pointer, captured size, current index.
The mutable and const instantiations differ only in a phantom parameter in
the source, so a single Lean structure models both. -/
structure iterator_ where
  base_ptr : Option Nat
  sz : Nat
  i : Nat
  deriving DecidableEq

/-- The `iterator_` constructor: stores the three fields, clamping the
index to the size (`if (i > sz) i = sz;`). -/
def iterator_.make (base_ptr_ : Option Nat) (sz_ : Nat) (i_ : Nat) : iterator_ :=
  { base_ptr := base_ptr_, sz := sz_, i := if i_ > sz_ then sz_ else i_ }

/-- `iterator_`'s copy constructor: copies all three fields. -/
def iterator_.copyCtor (other : iterator_) : iterator_ :=
  { base_ptr := other.base_ptr, sz := other.sz, i := other.i }

/-- `iterator_::operator=`: overwrites all three fields with `other`'s. -/
def iterator_.assign (_self other : iterator_) : iterator_ :=
  { base_ptr := other.base_ptr, sz := other.sz, i := other.i }

/-- `iterator_::operator++` (pre-increment): increments `i` when `i < sz`,
otherwise leaves the iterator unchanged. -/
def iterator_.inc (self : iterator_) : iterator_ :=
  if self.i < self.sz then { self with i := self.i + 1 } else self

/-- `iterator_::operator++(int)` (post-increment): returns the copy taken
before incrementing together with the incremented iterator. -/
def iterator_.incPost (self : iterator_) : iterator_ × iterator_ :=
  (iterator_.copyCtor self, self.inc)

/-- `iterator_::operator+=`: computes `next = i + n` in `size_t` arithmetic
(modulo `2 ^ 64`); if that wrapped (`next < i`) or exceeds the size
(`next > sz`), clamps to `sz`, else sets `i = next`. -/
def iterator_.addAssign (self : iterator_) (n : Nat) : iterator_ :=
  let next := (self.i + n) % SIZE_T_CARD
  if next < self.i ∨ next > self.sz then { self with i := self.sz }
  else { self with i := next }

/-- `iterator_::operator-`: distance in bytes, saturating at 0 when the
right-hand iterator is ahead. -/
def iterator_.sub (self other : iterator_) : Nat :=
  if other.i > self.i then 0 else self.i - other.i

/-- `iterator_::operator*`: dereference, valid only when `i < sz`. -/
def iterator_.deref (hp : Heap) (self : iterator_) : Except BufError Nat :=
  if self.i < self.sz then Except.ok (heapRead hp self.base_ptr self.i)
  else Except.error BufError.outOfRange

/-- `operator iterator_<const Val_T>`: conversion to the read-only variant;
the source builds a new iterator through the (clamping) constructor. -/
def iterator_.toConst (self : iterator_) : iterator_ :=
  iterator_.make self.base_ptr self.sz self.i

/-- The bytes a range-for over the buffer visits: dereference at each
position from the current one while the iterator has not reached the end
(`it != end` is `i ≠ sz`, i.e. `i < sz` under the iterator invariant). -/
def iterator_.collect (hp : Heap) (self : iterator_) : List Nat :=
  if h : self.i < self.sz then
    heapRead hp self.base_ptr self.i :: iterator_.collect hp self.inc
  else []
termination_by self.sz - self.i
decreasing_by simp [iterator_.inc, h]; omega

/-- `shared_buf::begin`: iterator at position 0. -/
def shared_buf.beginIter (b : shared_buf) : iterator_ :=
  iterator_.make b.ptr b.sz 0

/-- `shared_buf::end`: iterator at position `sz`. -/
def shared_buf.endIter (b : shared_buf) : iterator_ :=
  iterator_.make b.ptr b.sz b.sz

/-- `shared_buf`'s copy constructor: shares the storage pointer and copies
the size (the body re-assigns the same two fields; same result). -/
def shared_buf.copyCtor (other : shared_buf) : shared_buf :=
  { ptr := other.ptr, sz := other.sz }

/-- `shared_buf::operator=(const shared_buf&)`: same field copies. -/
def shared_buf.copyAssign (_self other : shared_buf) : shared_buf :=
  { ptr := other.ptr, sz := other.sz }

/-- `shared_buf`'s move constructor, for distinct objects: the new buffer
takes the pointer and size; the source is left with a null pointer
(`std::move` of the `shared_ptr`) and size 0.  Returns (target, source
after the move). -/
def shared_buf.moveCtor (other : shared_buf) : shared_buf × shared_buf :=
  ({ ptr := other.ptr, sz := other.sz }, { ptr := none, sz := 0 })

/-- `shared_buf::operator=(shared_buf&&)`, for distinct objects: same
transfer as the move constructor.  Returns (target, source after). -/
def shared_buf.moveAssign (_self other : shared_buf) : shared_buf × shared_buf :=
  ({ ptr := other.ptr, sz := other.sz }, { ptr := none, sz := 0 })

/-- `shared_buf::operator=(shared_buf&&)` when source and target alias
(`buf = std::move(buf)`).  Executing the body on one object:
`ptr = std::move(other.ptr)` is `shared_ptr` move-assignment, specified as
`shared_ptr(std::move(r)).swap(*this)`, which leaves an aliased pointer
holding its original value (the temporary takes the value and swaps it
straight back); `sz = other.sz` is a self-assignment; `other.sz = 0` then
zeroes the size.  Net effect: pointer retained, size 0. -/
def shared_buf.moveAssignSelf (self : shared_buf) : shared_buf :=
  { ptr := self.ptr, sz := 0 }

/-- `shared_buf::operator[]` (mutable): bounds-checked, returns a reference
to byte `i`, modelled as the location (pointer, index). -/
def shared_buf.refAt (b : shared_buf) (i : Nat) : Except BufError (Option Nat × Nat) :=
  if i < b.sz then Except.ok (b.ptr, i) else Except.error BufError.outOfRange

/-- `shared_buf::operator[] const`: bounds-checked byte read. -/
def shared_buf.getAt (hp : Heap) (b : shared_buf) (i : Nat) : Except BufError Nat :=
  if i < b.sz then Except.ok (heapRead hp b.ptr i) else Except.error BufError.outOfRange

/-- Writing `v` through the reference returned by the mutable
`operator[]` (`b[i] = v`). -/
def shared_buf.setAt (hp : Heap) (b : shared_buf) (i v : Nat) : Except BufError Heap :=
  (shared_buf.refAt b i).map (fun loc => heapWrite hp loc.1 loc.2 v)

/-- `shared_buf::size`. -/
def shared_buf.size (b : shared_buf) : Nat := b.sz

/-- The byte contents of the buffer, index 0 to `sz - 1`. -/
def shared_buf.bytes (hp : Heap) (b : shared_buf) : List Nat :=
  (List.range b.sz).map (fun i => heapRead hp b.ptr i)

/-- Well-formedness of a reachable buffer: a null pointer only occurs with
size 0 (freshly moved-from); every constructed buffer has a pointer. -/
abbrev shared_buf.Wf (b : shared_buf) : Prop := b.ptr = none → b.sz = 0

/-- The `std::ios_base` formatting flags relevant to integer output:
the three basefield bits plus `uppercase` and `showbase`. -/
structure fmtflags where
  decFlag : Bool
  hexFlag : Bool
  octFlag : Bool
  uppercaseFlag : Bool
  showbaseFlag : Bool
  deriving DecidableEq

/-- `std::resetiosflags(mask)`: clears exactly the flags set in `mask`. -/
def fmtflags.clearMask (f mask : fmtflags) : fmtflags :=
  { decFlag := f.decFlag && !mask.decFlag
    hexFlag := f.hexFlag && !mask.hexFlag
    octFlag := f.octFlag && !mask.octFlag
    uppercaseFlag := f.uppercaseFlag && !mask.uppercaseFlag
    showbaseFlag := f.showbaseFlag && !mask.showbaseFlag }

/-- An output stream: formatting state plus the characters written so far. -/
structure ostream where
  flags : fmtflags
  out : List Char
  deriving DecidableEq

/-- Writing a single character (`stream << 'c'`); characters are not
affected by formatting flags. -/
def ostream.putChar (st : ostream) (c : Char) : ostream :=
  { st with out := st.out ++ [c] }

/-- Appending a rendered character sequence to the stream. -/
def ostream.putStr (st : ostream) (s : List Char) : ostream :=
  { st with out := st.out ++ s }

/-- `stream << std::hex`: `setf(hex, basefield)` clears the basefield bits
and sets the hex bit. -/
def ostream.setHex (st : ostream) : ostream :=
  { st with flags :=
      { st.flags with decFlag := false, octFlag := false, hexFlag := true } }

/-- One digit character: 0-9, then letters from a (or A when uppercase). -/
def digitChar (upper : Bool) (d : Nat) : Char :=
  if d < 10 then Char.ofNat (48 + d)
  else if upper then Char.ofNat (55 + d) else Char.ofNat (87 + d)

/-- Digits of `n` in the given base, most significant first, fuelled (the
fuel `n + 1` in `digitsIn` always suffices). -/
def digitsAux (base : Nat) (upper : Bool) : Nat → Nat → List Char
  | 0, _ => []
  | fuel + 1, n =>
    if n < base then [digitChar upper n]
    else digitsAux base upper fuel (n / base) ++ [digitChar upper (n % base)]

/-- Rendering of `n` in the given base with minimal width. -/
def digitsIn (base : Nat) (upper : Bool) (n : Nat) : List Char :=
  digitsAux base upper (n + 1) n

/-- `std::num_put` rendering of a non-negative `int` under the formatting
flags: hex when the hex bit is set (lowercase unless `uppercase`; `0x`
mark only under `showbase` and for nonzero values), octal when the oct bit
is set, decimal otherwise (also when no basefield bit is set). -/
def intChars (f : fmtflags) (v : Nat) : List Char :=
  if f.hexFlag then
    (if f.showbaseFlag ∧ v ≠ 0 then
       (if f.uppercaseFlag then ['0', 'X'] else ['0', 'x'])
     else []) ++ digitsIn 16 f.uppercaseFlag v
  else if f.octFlag then
    (if f.showbaseFlag ∧ v ≠ 0 then ['0'] else []) ++ digitsIn 8 false v
  else digitsIn 10 false v

/-- `stream << (int)v` under the stream's current flags. -/
def ostream.putInt (st : ostream) (v : Nat) : ostream :=
  st.putStr (intChars st.flags v)

/-- `shared_buf::print`: saves the flags, resets them, writes `[`, switches
to hex, writes the bytes comma-separated with an `h` suffix each, writes
`]`, and restores the saved flags. -/
def shared_buf.print (hp : Heap) (b : shared_buf) (stream : ostream) : ostream :=
  let orig_stream_flags := stream.flags
  let stream1 := { stream with flags := fmtflags.clearMask stream.flags orig_stream_flags }
  let stream2 := (stream1.putChar '[').setHex
  let stream3 := (List.range b.sz).foldl
    (fun s i =>
      (((if i ≠ 0 then s.putChar ',' else s)).putInt (heapRead hp b.ptr i)).putChar 'h')
    stream2
  let stream4 := stream3.putChar ']'
  { stream4 with flags := orig_stream_flags }

/-- The pure character output of the printing loop over the first `n`
bytes (comma before every element except index 0, hex rendering, `h`). -/
def bodyChars (hp : Heap) (b : shared_buf) (n : Nat) : List Char :=
  (List.range n).foldl
    (fun acc i =>
      acc ++ (if i ≠ 0 then [','] else []) ++ digitsIn 16 false (heapRead hp b.ptr i) ++ ['h'])
    []

/-- Comma-separated join of rendered elements, no trailing separator. -/
def joinComma : List (List Char) → List Char
  | [] => []
  | [x] => x
  | x :: y :: rest => x ++ ',' :: joinComma (y :: rest)

/-- Modelled from the spec's words for the formatting contract: the output
is a bracketed, comma-separated list of the bytes, each rendered as
minimal-width lowercase hexadecimal followed by the letter h; an empty
buffer renders as a bare bracket pair. -/
def formatSpec (l : List Nat) : List Char :=
  '[' :: joinComma (l.map (fun v => digitsIn 16 false v ++ ['h'])) ++ [']']

/-- The all-clear formatting state print runs its loop in, after
resetting the caller's flags and setting hex. -/
def loopFlags : fmtflags :=
  { decFlag := false, hexFlag := true, octFlag := false
    uppercaseFlag := false, showbaseFlag := false }

/-- The const `operator[]` of the draft variant in src/unnamed/part_000
(lines 254-257): its body is `return operator[](i);` inside a const
member function, where the non-const overload is not viable, so the call
resolves to the const overload itself and the function recurses with the
same argument unconditionally.  Modelled with an explicit call-depth
budget: the recursive call passes the same buffer and index and consumes
one unit of budget; `none` is non-termination (the function neither
returns a byte nor raises out-of-range within any finite budget). -/
def shared_buf.getAtDraft (_hp : Heap) (_b : shared_buf) (_i : Nat) :
    Nat → Option (Except BufError Nat)
  | 0 => none
  | fuel + 1 => shared_buf.getAtDraft _hp _b _i fuel

/-- The iterator constructor of the draft variant in src/unnamed/part_001
(lines 53-60): stores the three fields as given, with an empty body — no
clamp of the position to the size. -/
def iterator_.makeDraft (base_ptr_ : Option Nat) (sz_ : Nat) (i_ : Nat) : iterator_ :=
  { base_ptr := base_ptr_, sz := sz_, i := i_ }

/-! Helper lemmas. -/

lemma fmtflags.clearMask_self (f : fmtflags) :
    fmtflags.clearMask f f =
      { decFlag := false, hexFlag := false, octFlag := false
        uppercaseFlag := false, showbaseFlag := false } := by
  cases f
  simp [fmtflags.clearMask]

lemma collect_at_end (hp : Heap) (it : iterator_) (h : ¬ it.i < it.sz) :
    iterator_.collect hp it = [] := by
  rw [iterator_.collect]
  simp [h]

lemma bodyChars_succ (hp : Heap) (b : shared_buf) (n : Nat) :
    bodyChars hp b (n + 1) =
      bodyChars hp b n ++ (if n ≠ 0 then [','] else [])
        ++ digitsIn 16 false (heapRead hp b.ptr n) ++ ['h'] := by
  simp [bodyChars, List.range_succ]

lemma intChars_loopFlags (v : Nat) : intChars loopFlags v = digitsIn 16 false v := by
  simp [intChars, loopFlags]

lemma print_loop (hp : Heap) (b : shared_buf) (n : Nat) :
    ∀ st : ostream, st.flags = loopFlags →
      (List.range n).foldl
        (fun s i =>
          (((if i ≠ 0 then s.putChar ',' else s)).putInt (heapRead hp b.ptr i)).putChar 'h')
        st
      = { flags := loopFlags, out := st.out ++ bodyChars hp b n } := by
  induction n with
  | zero =>
    intro st h
    cases st
    simp [bodyChars]
    exact h
  | succ n ih =>
    intro st h
    rw [List.range_succ, List.foldl_append, ih st h, bodyChars_succ]
    by_cases hn : n = 0 <;>
      simp [hn, ostream.putChar, ostream.putInt, ostream.putStr, intChars_loopFlags]

lemma print_eq (hp : Heap) (b : shared_buf) (st : ostream) :
    shared_buf.print hp b st =
      { flags := st.flags, out := st.out ++ ('[' :: bodyChars hp b b.sz ++ [']']) } := by
  simp only [shared_buf.print]
  rw [fmtflags.clearMask_self]
  rw [print_loop hp b b.sz _ (by simp [ostream.putChar, ostream.setHex, loopFlags])]
  simp [ostream.putChar, ostream.setHex]

lemma joinComma_cons_cons (a c : List Char) (t : List (List Char)) :
    joinComma (a :: c :: t) = a ++ ',' :: joinComma (c :: t) := rfl

lemma joinComma_concat (xs : List (List Char)) (x : List Char) :
    joinComma (xs ++ [x]) = joinComma xs ++ (if xs.isEmpty then [] else [',']) ++ x := by
  induction xs with
  | nil => simp [joinComma]
  | cons a t ih =>
    cases t with
    | nil => simp [joinComma]
    | cons c t' =>
      have ih' : joinComma (c :: (t' ++ [x])) = joinComma (c :: t') ++ [','] ++ x := by
        simpa using ih
      rw [show ((a :: c :: t') ++ [x]) = a :: c :: (t' ++ [x]) by simp]
      rw [joinComma_cons_cons a c (t' ++ [x]), ih', joinComma_cons_cons a c t']
      simp

lemma bodyChars_eq_joinComma (hp : Heap) (b : shared_buf) (n : Nat) :
    bodyChars hp b n =
      joinComma ((List.range n).map
        (fun i => digitsIn 16 false (heapRead hp b.ptr i) ++ ['h'])) := by
  induction n with
  | zero => simp [bodyChars, joinComma]
  | succ n ih =>
    rw [bodyChars_succ, ih, List.range_succ, List.map_append]
    simp only [List.map_cons, List.map_nil]
    rw [joinComma_concat]
    by_cases hn : n = 0
    · subst hn
      simp [joinComma]
    · simp [hn, List.isEmpty_iff, List.map_eq_nil_iff, List.range_eq_nil]

lemma print_out_format (hp : Heap) (b : shared_buf) (st : ostream) :
    (shared_buf.print hp b st).out = st.out ++ formatSpec (shared_buf.bytes hp b) := by
  rw [print_eq]
  simp [formatSpec, shared_buf.bytes, List.map_map, bodyChars_eq_joinComma,
    Function.comp_def]

/-! Claim theorems. -/

/-- C1: copying a buffer shares storage and duplicates no bytes: for every
buffer, every index below its size and every byte value, writing the value
through the copy's mutable indexing makes a read of the same index on the
original yield that value; copy assignment builds the same sharing value
as the copy constructor. -/
theorem copy_shares_storage (hp : Heap) (b1 : shared_buf) (i v : Nat)
    (hwf : shared_buf.Wf b1) (hi : i < b1.sz) (hv : v < 256) :
    (∀ hp' : Heap,
        shared_buf.setAt hp (shared_buf.copyCtor b1) i v = Except.ok hp' →
        shared_buf.getAt hp' b1 i = Except.ok v)
    ∧ (∀ b0 : shared_buf, shared_buf.copyAssign b0 b1 = shared_buf.copyCtor b1) := by
  constructor
  · intro hp' hset
    obtain ⟨a, ha⟩ : ∃ a, b1.ptr = some a := by
      cases hb : b1.ptr with
      | none => exact absurd (hwf hb) (by omega)
      | some a => exact ⟨a, rfl⟩
    simp only [shared_buf.setAt, shared_buf.refAt, shared_buf.copyCtor, hi, if_pos,
      Except.map, Except.ok.injEq] at hset
    subst hset
    simp [shared_buf.getAt, hi, heapRead, heapWrite, ha, Nat.mod_eq_of_lt hv]
  · intro b0
    rfl

/-- Witness for the copy-sharing theorem: a 3-byte buffer at allocation 0
over the all-zero heap, writing 7 at index 1 through the copy. -/
theorem copy_shares_storage_witness :
    shared_buf.getAt (heapWrite (fun _ _ => 0) (some 0) 1 7) ⟨some 0, 3⟩ 1 = Except.ok 7 :=
  (copy_shares_storage (fun _ _ => 0) ⟨some 0, 3⟩ 1 7
      (fun hcon => Option.noConfusion hcon) (by decide) (by decide)).1
    (heapWrite (fun _ _ => 0) (some 0) 1 7) rfl

/-- C2: after a move (constructor or assignment) the source has size 0,
indexing it always fails with out-of-range, iterating it yields no
elements and printing it appends exactly a bare bracket pair, while the
target has the source's original size and bytes. -/
theorem move_empties_source (hp : Heap) (b1 b0 : shared_buf) :
    ((shared_buf.moveCtor b1).2.sz = 0
      ∧ (∀ i, shared_buf.getAt hp (shared_buf.moveCtor b1).2 i
          = Except.error BufError.outOfRange)
      ∧ iterator_.collect hp (shared_buf.moveCtor b1).2.beginIter = []
      ∧ (∀ st : ostream,
          (shared_buf.print hp (shared_buf.moveCtor b1).2 st).out = st.out ++ ['[', ']'])
      ∧ (shared_buf.moveCtor b1).1.sz = b1.sz
      ∧ shared_buf.bytes hp (shared_buf.moveCtor b1).1 = shared_buf.bytes hp b1)
    ∧ ((shared_buf.moveAssign b0 b1).2.sz = 0
      ∧ (∀ i, shared_buf.getAt hp (shared_buf.moveAssign b0 b1).2 i
          = Except.error BufError.outOfRange)
      ∧ iterator_.collect hp (shared_buf.moveAssign b0 b1).2.beginIter = []
      ∧ (∀ st : ostream,
          (shared_buf.print hp (shared_buf.moveAssign b0 b1).2 st).out = st.out ++ ['[', ']'])
      ∧ (shared_buf.moveAssign b0 b1).1.sz = b1.sz
      ∧ shared_buf.bytes hp (shared_buf.moveAssign b0 b1).1 = shared_buf.bytes hp b1) := by
  have hmain :
      ∀ p : shared_buf × shared_buf,
        p = ({ ptr := b1.ptr, sz := b1.sz }, { ptr := none, sz := 0 }) →
        p.2.sz = 0
        ∧ (∀ i, shared_buf.getAt hp p.2 i = Except.error BufError.outOfRange)
        ∧ iterator_.collect hp p.2.beginIter = []
        ∧ (∀ st : ostream, (shared_buf.print hp p.2 st).out = st.out ++ ['[', ']'])
        ∧ p.1.sz = b1.sz
        ∧ shared_buf.bytes hp p.1 = shared_buf.bytes hp b1 := by
    intro p hpp
    subst hpp
    refine ⟨rfl, ?_, ?_, ?_, rfl, rfl⟩
    · intro i
      simp [shared_buf.getAt]
    · exact collect_at_end hp _ (by simp [shared_buf.beginIter, iterator_.make])
    · intro st
      rw [print_eq]
      rfl
  exact ⟨hmain _ rfl, hmain _ rfl⟩

/-- C3: both indexing variants fail with out-of-range exactly when the
index reaches the size, and otherwise the read variant returns byte `i`
and the mutable variant returns the in-bounds location, neither touching
the buffer or the heap. -/
theorem index_bounds (hp : Heap) (b : shared_buf) (i : Nat) :
    (shared_buf.getAt hp b i = Except.error BufError.outOfRange ↔ b.sz ≤ i)
    ∧ (shared_buf.refAt b i = Except.error BufError.outOfRange ↔ b.sz ≤ i)
    ∧ (i < b.sz →
        shared_buf.getAt hp b i = Except.ok (heapRead hp b.ptr i)
        ∧ shared_buf.refAt b i = Except.ok (b.ptr, i)) := by
  unfold shared_buf.getAt shared_buf.refAt
  by_cases h : i < b.sz
  · simp only [if_pos h]
    simp
    omega
  · simp only [if_neg h]
    simp
    omega

/-- Witness for the indexing bounds theorem: on a 2-byte buffer, index 5
fails and index 1 reads the stored byte. -/
theorem index_bounds_witness :
    shared_buf.getAt (fun _ _ => 0) ⟨some 0, 2⟩ 5 = Except.error BufError.outOfRange
    ∧ shared_buf.getAt (fun _ _ => 0) ⟨some 0, 2⟩ 1 = Except.ok 0 :=
  ⟨(index_bounds (fun _ _ => 0) ⟨some 0, 2⟩ 5).1.mpr (by decide),
   ((index_bounds (fun _ _ => 0) ⟨some 0, 2⟩ 1).2.2 (by decide)).1⟩

/-- C4: cursor positions stay in the closed range from 0 to the captured
size: creation clamps an out-of-range request to the size, and copy,
assignment, pre/post increment, bulk advance and the read-only conversion
all keep the position at most the size. -/
theorem cursor_position_invariant :
    (∀ (base : Option Nat) (sz i0 : Nat),
        (iterator_.make base sz i0).i ≤ (iterator_.make base sz i0).sz)
    ∧ (∀ (base : Option Nat) (sz i0 : Nat), sz < i0 → (iterator_.make base sz i0).i = sz)
    ∧ (∀ it : iterator_, it.i ≤ it.sz →
        (iterator_.copyCtor it).i ≤ (iterator_.copyCtor it).sz)
    ∧ (∀ it other : iterator_, other.i ≤ other.sz →
        (iterator_.assign it other).i ≤ (iterator_.assign it other).sz)
    ∧ (∀ it : iterator_, it.i ≤ it.sz → it.inc.i ≤ it.inc.sz)
    ∧ (∀ it : iterator_, it.i ≤ it.sz →
        it.incPost.1.i ≤ it.incPost.1.sz ∧ it.incPost.2.i ≤ it.incPost.2.sz)
    ∧ (∀ (it : iterator_) (n : Nat), (it.addAssign n).i ≤ (it.addAssign n).sz)
    ∧ (∀ it : iterator_, it.toConst.i ≤ it.toConst.sz) := by
  refine ⟨?_, ?_, ?_, ?_, ?_, ?_, ?_, ?_⟩
  · intro base sz i0
    dsimp only [iterator_.make]
    split <;> omega
  · intro base sz i0 h
    dsimp only [iterator_.make]
    rw [if_pos h]
  · intro it h
    exact h
  · intro it other h
    exact h
  · intro it h
    dsimp only [iterator_.inc]
    split <;> first | omega | (dsimp; omega)
  · intro it h
    constructor
    · exact h
    · dsimp only [iterator_.incPost, iterator_.inc]
      split <;> first | omega | (dsimp; omega)
  · intro it n
    dsimp only [iterator_.addAssign]
    split <;> dsimp <;> omega
  · intro it
    dsimp only [iterator_.toConst, iterator_.make]
    split <;> omega

/-- Witness for the cursor invariant theorem: creation at position 10 over
size 3 clamps to 3, and increment from position 1 of size 3 stays in
range. -/
theorem cursor_position_invariant_witness :
    (iterator_.make (some 0) 3 10).i = 3
    ∧ (iterator_.inc ⟨some 0, 3, 1⟩).i ≤ (iterator_.inc ⟨some 0, 3, 1⟩).sz :=
  ⟨cursor_position_invariant.2.1 (some 0) 3 10 (by decide),
   cursor_position_invariant.2.2.2.2.1 ⟨some 0, 3, 1⟩ (by decide)⟩

/-- C5: bulk advance sets the position to the exact sum when that sum
neither wraps the 64-bit range nor exceeds the captured size, and clamps
to the size otherwise; in particular a sum beyond the size of the
underlying buffer yields exactly that buffer's end iterator. -/
theorem bulk_advance_clamps (it : iterator_) (n : Nat)
    (hin : it.i ≤ it.sz) (hsz : it.sz < SIZE_T_CARD) (hn : n < SIZE_T_CARD) :
    (it.i + n < SIZE_T_CARD → it.i + n ≤ it.sz → (it.addAssign n).i = it.i + n)
    ∧ (SIZE_T_CARD ≤ it.i + n ∨ it.sz < it.i + n → (it.addAssign n).i = it.sz)
    ∧ (∀ b : shared_buf, it.base_ptr = b.ptr → it.sz = b.sz → b.sz < it.i + n →
        it.addAssign n = shared_buf.endIter b) := by
  have hc : SIZE_T_CARD = 18446744073709551616 := by norm_num [SIZE_T_CARD]
  rw [hc] at hsz hn
  have key : (it.addAssign n).i =
      if it.i + n ≤ it.sz ∧ it.i + n < SIZE_T_CARD then it.i + n else it.sz := by
    dsimp only [iterator_.addAssign]
    rw [hc]
    split <;> split <;> dsimp <;> omega
  refine ⟨?_, ?_, ?_⟩
  · intro h1 h2
    rw [key, if_pos ⟨h2, h1⟩]
  · intro h
    rw [key, if_neg]
    rw [hc]
    rw [hc] at h
    omega
  · intro b hb hs hlt
    have hcond : (it.i + n) % SIZE_T_CARD < it.i ∨ (it.i + n) % SIZE_T_CARD > it.sz := by
      rw [hc]
      omega
    have hres : it.addAssign n = ⟨it.base_ptr, it.sz, it.sz⟩ := by
      dsimp only [iterator_.addAssign]
      rw [if_pos hcond]
    rw [hres, hb, hs]
    dsimp only [shared_buf.endIter, iterator_.make]
    rw [if_neg (by omega)]

/-- Witness for the bulk-advance theorem: advancing by 10 from position 2
of a 5-byte buffer clamps to the end. -/
theorem bulk_advance_clamps_witness :
    (iterator_.addAssign ⟨some 0, 5, 2⟩ 10).i = 5
    ∧ iterator_.addAssign ⟨some 0, 5, 2⟩ 10 = shared_buf.endIter ⟨some 0, 5⟩ := by
  have h := bulk_advance_clamps ⟨some 0, 5, 2⟩ 10 (by decide)
    (by norm_num [SIZE_T_CARD]) (by norm_num [SIZE_T_CARD])
  exact ⟨h.2.1 (Or.inr (by norm_num)), h.2.2 ⟨some 0, 5⟩ rfl rfl (by norm_num)⟩

/-- C6: increment adds 1 below the size and is a no-op at the size;
post-increment returns the prior value and performs the same step; the
position never decreases under increment or bulk advance; and iterating
increment from the begin iterator visits positions 0 up to the size in
order and then stabilizes at the end sentinel. -/
theorem advance_saturates :
    (∀ it : iterator_, it.i < it.sz → it.inc.i = it.i + 1)
    ∧ (∀ it : iterator_, it.i = it.sz → it.inc = it)
    ∧ (∀ it : iterator_, it.incPost.1 = it ∧ it.incPost.2 = it.inc)
    ∧ (∀ it : iterator_, it.i ≤ it.inc.i)
    ∧ (∀ (it : iterator_) (n : Nat), it.i ≤ it.sz → it.i ≤ (it.addAssign n).i)
    ∧ (∀ (b : shared_buf) (k : Nat),
        iterator_.inc^[k] b.beginIter = ⟨b.ptr, b.sz, min k b.sz⟩) := by
  refine ⟨?_, ?_, ?_, ?_, ?_, ?_⟩
  · intro it h
    dsimp only [iterator_.inc]
    rw [if_pos h]
  · intro it h
    dsimp only [iterator_.inc]
    rw [if_neg (by omega)]
  · intro it
    exact ⟨rfl, rfl⟩
  · intro it
    dsimp only [iterator_.inc]
    split <;> first | omega | (dsimp; omega)
  · intro it n h
    dsimp only [iterator_.addAssign]
    split <;> dsimp <;> omega
  · intro b k
    induction k with
    | zero =>
      simp only [Function.iterate_zero_apply]
      dsimp only [shared_buf.beginIter, iterator_.make]
      rw [if_neg (by omega)]
      simp
    | succ k ih =>
      rw [Function.iterate_succ_apply', ih]
      dsimp only [iterator_.inc]
      split <;> simp_all <;> omega

/-- Witness for the advance theorem: increment goes from position 1 to 2
on size 3, and three increments from begin of a 2-byte buffer sit at the
end sentinel. -/
theorem advance_saturates_witness :
    (iterator_.inc ⟨some 0, 3, 1⟩).i = 1 + 1
    ∧ iterator_.inc^[3] (shared_buf.beginIter ⟨some 0, 2⟩) = ⟨some 0, 2, min 3 2⟩ :=
  ⟨advance_saturates.1 ⟨some 0, 3, 1⟩ (by decide),
   advance_saturates.2.2.2.2.2 ⟨some 0, 2⟩ 3⟩

/-- C7: the distance of two cursors over the same buffer is the position
difference when the right cursor is not ahead and 0 otherwise, hence it is
never negative and it is 0 whenever the left position is at most the right
position. -/
theorem distance_saturating (a b : iterator_)
    (_hbase : a.base_ptr = b.base_ptr) (_hsz : a.sz = b.sz) :
    (iterator_.sub a b = if b.i ≤ a.i then a.i - b.i else 0)
    ∧ 0 ≤ iterator_.sub a b
    ∧ (a.i ≤ b.i → iterator_.sub a b = 0) := by
  unfold iterator_.sub
  refine ⟨?_, Nat.zero_le _, ?_⟩
  · split <;> split <;> omega
  · intro h
    split <;> omega

/-- Witness for the distance theorem: cursors at positions 3 and 1 of the
same 5-byte buffer are 2 apart. -/
theorem distance_saturating_witness :
    iterator_.sub ⟨some 0, 5, 3⟩ ⟨some 0, 5, 1⟩ = 2 :=
  ((distance_saturating ⟨some 0, 5, 3⟩ ⟨some 0, 5, 1⟩ rfl rfl).1).trans (by decide)

/-- C8: printing appends exactly the bracketed, comma-separated list of
the buffer's bytes, each rendered as minimal-width lowercase hexadecimal
followed by the letter h, with no trailing separator; a zero-size buffer
renders as a bare bracket pair, byte value 10 renders with the letter a,
byte value 255 as two letters f. -/
theorem print_formats_hex :
    (∀ (hp : Heap) (b : shared_buf) (st : ostream),
        (shared_buf.print hp b st).out = st.out ++ formatSpec (shared_buf.bytes hp b))
    ∧ (∀ (hp : Heap) (b : shared_buf) (st : ostream), b.sz = 0 →
        (shared_buf.print hp b st).out = st.out ++ ['[', ']'])
    ∧ (shared_buf.print (fun a i => if a = 0 then [1, 2, 3].getD i 0 else 0) ⟨some 0, 3⟩
        ⟨loopFlags, []⟩).out = "[1h,2h,3h]".data
    ∧ (shared_buf.print (fun _ _ => 255) ⟨some 0, 1⟩ ⟨loopFlags, []⟩).out = "[ffh]".data
    ∧ (shared_buf.print (fun _ _ => 10) ⟨some 0, 1⟩ ⟨loopFlags, []⟩).out = "[ah]".data := by
  refine ⟨print_out_format, ?_, by decide, by decide, by decide⟩
  intro hp b st h
  rw [print_eq, h]
  rfl

/-- Witness for the formatting theorem: the zero-size conjunct applied to
a moved-from buffer over the zero heap and an empty decimal-state sink. -/
theorem print_formats_hex_witness :
    (shared_buf.print (fun _ _ => 0) ⟨none, 0⟩
        ⟨⟨true, false, false, false, false⟩, []⟩).out
      = ([] : List Char) ++ ['[', ']'] :=
  print_formats_hex.2.1 (fun _ _ => 0) ⟨none, 0⟩
    ⟨⟨true, false, false, false, false⟩, []⟩ rfl

/-- C9: printing restores the sink's formatting flags to their value
before the call, and two sinks holding the same prior output receive the
same characters regardless of their formatting state. -/
theorem print_restores_flags (hp : Heap) (b : shared_buf) (st : ostream) :
    (shared_buf.print hp b st).flags = st.flags
    ∧ (∀ st1 st2 : ostream, st1.out = st2.out →
        (shared_buf.print hp b st1).out = (shared_buf.print hp b st2).out) := by
  constructor
  · rw [print_eq]
  · intro st1 st2 h
    rw [print_eq, print_eq, h]

/-- Witness for the flag-restoration theorem: a sink with every flag set
and a sink with no flag set receive the same characters. -/
theorem print_restores_flags_witness :
    (shared_buf.print (fun _ _ => 0) ⟨some 0, 1⟩
        ⟨⟨true, true, true, true, true⟩, []⟩).out
      = (shared_buf.print (fun _ _ => 0) ⟨some 0, 1⟩
        ⟨⟨false, false, false, false, false⟩, []⟩).out :=
  (print_restores_flags (fun _ _ => 0) ⟨some 0, 1⟩
      ⟨⟨true, true, true, true, true⟩, []⟩).2
    ⟨⟨true, true, true, true, true⟩, []⟩
    ⟨⟨false, false, false, false, false⟩, []⟩ rfl

/-- C10 counterexample: self-move-assignment of a 3-byte buffer at
allocation 0 does not drop the storage reference; the claim that the
buffer is left with size 0 and no storage reference fails. -/
theorem self_move_keeps_storage_counterexample :
    ¬ ((shared_buf.moveAssignSelf ⟨some 0, 3⟩).sz = 0
        ∧ (shared_buf.moveAssignSelf ⟨some 0, 3⟩).ptr = none) := by
  decide

/-- C10 (amended): move-assigning a buffer from itself leaves its size 0
but retains its storage reference (the owned allocation's reference is
not dropped); the buffer is observably empty — indexing always fails with
out-of-range — and remains a valid, reusable value. -/
theorem self_move_empties_size_only (hp : Heap) (b : shared_buf) (i : Nat) :
    (shared_buf.moveAssignSelf b).sz = 0
    ∧ (shared_buf.moveAssignSelf b).ptr = b.ptr
    ∧ shared_buf.getAt hp (shared_buf.moveAssignSelf b) i
        = Except.error BufError.outOfRange := by
  refine ⟨rfl, rfl, ?_⟩
  simp [shared_buf.getAt, shared_buf.moveAssignSelf]

/-- C3: the claim fails on the cited read-only variant of
src/unnamed/part_000 (lines 254-257): that const indexing recurses into
itself unconditionally, so for every buffer, every index and every call
budget it yields no result — it never raises out-of-range (contradicting
its own documented throw condition) and never returns byte `i`.  The
bounds-checked behavior the claim describes is implemented by the mature
header and proven above for `getAt`/`refAt`; the draft is the slip.
Concrete failing inputs: a 2-byte buffer with out-of-range index 5 and
with in-range index 1. -/
theorem const_index_draft_diverges (hp : Heap) (b : shared_buf) (i : Nat) :
    (∀ fuel : Nat, shared_buf.getAtDraft hp b i fuel = none)
    ∧ shared_buf.getAtDraft (fun _ _ => 0) ⟨some 0, 2⟩ 5 1000 = none
    ∧ shared_buf.getAtDraft (fun _ _ => 0) ⟨some 0, 2⟩ 1 1000 = none := by
  have hall : ∀ (hp' : Heap) (b' : shared_buf) (i' fuel : Nat),
      shared_buf.getAtDraft hp' b' i' fuel = none := by
    intro hp' b' i' fuel
    induction fuel with
    | zero => rfl
    | succ n ih => exact ih
  exact ⟨hall hp b i, hall _ _ _ _, hall _ _ _ _⟩

/-- C4: the claim fails on the cited creation code of
src/unnamed/part_001 (lines 53-60): that draft constructor stores the
requested position unchanged, so a creation request beyond the size is
not clamped — created over size 3 at position 10, the cursor's position
is 10, strictly above its captured size, outside the claimed range.
The clamping behavior the claim describes is implemented by the mature
header's constructor and proven above for `make`; the draft is the slip. -/
theorem make_draft_skips_clamp :
    (∀ (base : Option Nat) (sz i0 : Nat), (iterator_.makeDraft base sz i0).i = i0)
    ∧ (iterator_.makeDraft (some 0) 3 10).sz < (iterator_.makeDraft (some 0) 3 10).i :=
  ⟨fun _ _ _ => rfl, by decide⟩
